import Mathlib

/-!
Shallow embedding of the client-ledger application `app.js` (painel de
clientes).  The aggregation and filter engine of the program is translated
into executable Lean definitions: clients and transactions become
structures, the global mutable arrays `allClients` / `allTransactions`
become explicit arguments, `localStorage` becomes an explicit `Storage`
value, and JavaScript numbers are modelled as exact rationals (`ℚ`).
Dates in `yyyy-mm-dd` form are parsed to a year/month/day triple ordered
lexicographically, which agrees with the ordering of the JavaScript
`Date` objects produced by `parseDate` on well-formed date strings
(both are interpreted at local midnight).
-/

/-- A client record from the Roster (`clientes.json`).  Only the fields the
aggregation and filter engine reads are modelled; the remaining fields
(`celular`, `vendedor`, `bandeira`, `senha`, `enderecoCompleto`) are
display-only and never inspected by the computations under verification.
`comissaoPct` may be absent in the JSON, hence `Option`. -/
structure Client where
  id : String
  nome : String
  empresa : String
  comissaoPct : Option ℚ
deriving DecidableEq

/-- A transaction record of the Store (`allTransactions`), as built by
`addTransaction` in `app.js`: `tipo` is a free-form string (normally
`"entrada"` or `"saida"`), `valor` a number, `data` a `yyyy-mm-dd` string. -/
structure Transaction where
  id : String
  clienteId : String
  tipo : String
  valor : ℚ
  data : String
deriving DecidableEq

/-- A calendar date, the result of `parseDate` in `app.js`
(`new Date(dateString + 'T00:00:00')`, i.e. local midnight of the given
calendar day). -/
structure LocalDate where
  year : Nat
  month : Nat
  day : Nat
deriving DecidableEq

/-- Strict comparison of two local-midnight dates; on well-formed dates
this is exactly the `<` comparison of the corresponding JavaScript `Date`
objects (comparison of their time values). -/
def LocalDate.ltb (a b : LocalDate) : Bool :=
  if a.year ≠ b.year then decide (a.year < b.year)
  else if a.month ≠ b.month then decide (a.month < b.month)
  else decide (a.day < b.day)

/-- Non-strict comparison of two local-midnight dates (`<=` on the
JavaScript `Date` time values). -/
def LocalDate.leb (a b : LocalDate) : Bool :=
  if a.year ≠ b.year then decide (a.year < b.year)
  else if a.month ≠ b.month then decide (a.month < b.month)
  else decide (a.day ≤ b.day)

/-- Split a character list at every occurrence of a separator character
(the splitting the platform's date parser performs on the `-` separators
of a `yyyy-mm-dd` string). -/
def splitOnChar (sep : Char) : List Char → List (List Char)
  | [] => [[]]
  | c :: rest =>
    let r := splitOnChar sep rest
    if c == sep then [] :: r
    else
      match r with
      | h :: t => (c :: h) :: t
      | [] => [[c]]

/-- Digit string to number, most significant digit first. -/
def digitsToNat (l : List Char) : Nat :=
  l.foldl (fun acc c => acc * 10 + (c.toNat - '0'.toNat)) 0

/-- Read a non-empty all-digit character list as a number. -/
def charsToNat? (l : List Char) : Option Nat :=
  if l.isEmpty || !l.all Char.isDigit then none else some (digitsToNat l)

/-- Function `parseDate` from `app.js`: converts a `'yyyy-mm-dd'` string to the date
object for local midnight of that day
(`new Date(dateString + 'T00:00:00')`).  Malformed input is mapped to a
dummy date (the JavaScript original would produce an `Invalid Date`);
every claim below only exercises well-formed date strings. -/
def parseDate (dateString : String) : LocalDate :=
  match splitOnChar '-' dateString.data with
  | [y, m, d] =>
    ⟨(charsToNat? y).getD 0, (charsToNat? m).getD 0, (charsToNat? d).getD 0⟩
  | _ => ⟨0, 0, 0⟩

/-- Function `getTransactionsForClient` from `app.js`: all transactions of a given
client, in Store order. -/
def getTransactionsForClient (allTransactions : List Transaction)
    (clientId : String) : List Transaction :=
  allTransactions.filter (fun t => t.clienteId == clientId)

/-- Function `calculateClientBalance` from `app.js`: reduce over the client's
transactions starting from 0, adding `valor` for `tipo === 'entrada'`,
subtracting it for `tipo === 'saida'`, and leaving the accumulator
untouched for any other `tipo`. -/
def calculateClientBalance (allTransactions : List Transaction)
    (clientId : String) : ℚ :=
  (getTransactionsForClient allTransactions clientId).foldl
    (fun acc trans =>
      if trans.tipo == "entrada" then acc + trans.valor
      else if trans.tipo == "saida" then acc - trans.valor
      else acc) 0

/-- Sum of the `valor` fields of a list of transactions (specification
vocabulary for stating the balance and dashboard claims). -/
def sumValor (l : List Transaction) : ℚ :=
  (l.map Transaction.valor).sum

theorem sumValor_nil : sumValor [] = 0 := rfl

theorem sumValor_cons (t : Transaction) (l : List Transaction) :
    sumValor (t :: l) = t.valor + sumValor l := by
  simp [sumValor]

/-- The reduce in `calculateClientBalance`, run from an arbitrary
accumulator, adds the entrada total and subtracts the saida total. -/
theorem balance_foldl (l : List Transaction) :
    ∀ acc : ℚ,
      l.foldl
        (fun acc trans =>
          if trans.tipo == "entrada" then acc + trans.valor
          else if trans.tipo == "saida" then acc - trans.valor
          else acc) acc
      = acc + sumValor (l.filter (fun t => t.tipo == "entrada"))
            - sumValor (l.filter (fun t => t.tipo == "saida")) := by
  induction l with
  | nil => intro acc; simp [sumValor]
  | cons t l ih =>
    intro acc
    rw [List.foldl_cons, ih]
    by_cases he : t.tipo = "entrada"
    · simp [List.filter_cons, he, sumValor_cons]
      ring
    · by_cases hs : t.tipo = "saida"
      · simp [List.filter_cons, he, hs, sumValor_cons]
        ring
      · simp [List.filter_cons, he, hs]

/-- The date test inside `calculateDashboardStats`: a transaction is kept
unless a provided start bound lies strictly after its date or a provided
end bound lies strictly before its date
(`if (start && transDate < start) return false; if (end && transDate > end)
return false; return true`). -/
def transactionInRange (start stop : Option LocalDate) (t : Transaction) : Bool :=
  let transDate := parseDate t.data
  if start.elim false (fun s => LocalDate.ltb transDate s) then false
  else if stop.elim false (fun e => LocalDate.ltb e transDate) then false
  else true

/-- The period filter of `calculateDashboardStats` (step 3 in `app.js`):
parse the provided bounds (a missing bound stays `null`) and keep the
transactions inside the range.  `none` models both a `null` bound and the
empty string of an unfilled date input, which JavaScript treats as falsy. -/
def filterTransactionsByRange (allTransactions : List Transaction)
    (startDate endDate : Option String) : List Transaction :=
  let start := startDate.map parseDate
  let stop := endDate.map parseDate
  allTransactions.filter (transactionInRange start stop)

/-- The statistics object returned by `calculateDashboardStats`. -/
structure DashboardStats where
  totalClientes : Nat
  saldoTotal : ℚ
  comissaoTotalValor : ℚ
  comissaoMediaPct : ℚ
deriving DecidableEq

/-- Function `calculateDashboardStats` from `app.js`.  The client count and the
average commission are computed from the full Roster; the filtered
transactions then feed the net balance and the commission total.  The
`for`-loop over the two mutable accumulators `saldoTotal` and
`comissaoTotalValor` becomes a fold over a pair.  The JavaScript truthiness
tests `c.comissaoPct || 0` and `client && client.comissaoPct` become the
corresponding `Option`/zero tests. -/
def calculateDashboardStats (allClients : List Client)
    (allTransactions : List Transaction)
    (startDate endDate : Option String) : DashboardStats :=
  let totalClientes := allClients.length
  let totalComissaoPct : ℚ :=
    if totalClientes > 0 then
      allClients.foldl (fun acc c => acc + c.comissaoPct.getD 0) 0
    else 0
  let comissaoMediaPct : ℚ :=
    if totalClientes > 0 then totalComissaoPct / totalClientes else 0
  let filteredTransactions :=
    filterTransactionsByRange allTransactions startDate endDate
  let totals : ℚ × ℚ :=
    filteredTransactions.foldl
      (fun acc trans =>
        if trans.tipo == "entrada" then
          let saldo := acc.1 + trans.valor
          let comissao :=
            match allClients.find? (fun c => c.id == trans.clienteId) with
            | some client =>
              match client.comissaoPct with
              | some pct =>
                if pct ≠ 0 then acc.2 + trans.valor * (pct / 100) else acc.2
              | none => acc.2
            | none => acc.2
          (saldo, comissao)
        else if trans.tipo == "saida" then (acc.1 - trans.valor, acc.2)
        else acc)
      (0, 0)
  { totalClientes := totalClientes
    saldoTotal := totals.1
    comissaoTotalValor := totals.2
    comissaoMediaPct := comissaoMediaPct }

/-- Specification vocabulary for the commission claims: the commission a
single transaction earns, looking its client up in the Roster; an unknown
client or an absent `comissaoPct` contributes 0. -/
def commissionForTrans (allClients : List Client) (t : Transaction) : ℚ :=
  match allClients.find? (fun c => c.id == t.clienteId) with
  | some client => t.valor * (client.comissaoPct.getD 0 / 100)
  | none => 0

/-- Sum of the commissions of a list of transactions. -/
def sumCommission (allClients : List Client) (l : List Transaction) : ℚ :=
  (l.map (commissionForTrans allClients)).sum

theorem sumCommission_cons (allClients : List Client) (t : Transaction)
    (l : List Transaction) :
    sumCommission allClients (t :: l)
      = commissionForTrans allClients t + sumCommission allClients l := by
  simp [sumCommission]

/-- The pair fold in `calculateDashboardStats`, run from an arbitrary
accumulator: the first component gains the entrada total minus the saida
total, the second gains the commission total of the entrada transactions. -/
theorem dashboard_foldl (allClients : List Client) (l : List Transaction) :
    ∀ acc : ℚ × ℚ,
      l.foldl
        (fun acc trans =>
          if trans.tipo == "entrada" then
            let saldo := acc.1 + trans.valor
            let comissao :=
              match allClients.find? (fun c => c.id == trans.clienteId) with
              | some client =>
                match client.comissaoPct with
                | some pct =>
                  if pct ≠ 0 then acc.2 + trans.valor * (pct / 100) else acc.2
                | none => acc.2
              | none => acc.2
            (saldo, comissao)
          else if trans.tipo == "saida" then (acc.1 - trans.valor, acc.2)
          else acc)
        acc
      = (acc.1 + sumValor (l.filter (fun t => t.tipo == "entrada"))
               - sumValor (l.filter (fun t => t.tipo == "saida")),
         acc.2 + sumCommission allClients
                   (l.filter (fun t => t.tipo == "entrada"))) := by
  induction l with
  | nil => intro acc; simp [sumValor, sumCommission]
  | cons t l ih =>
    intro acc
    rw [List.foldl_cons, ih]
    by_cases he : t.tipo = "entrada"
    · have hcomm :
          (match allClients.find? (fun c => c.id == t.clienteId) with
            | some client =>
              match client.comissaoPct with
              | some pct =>
                if pct ≠ 0 then acc.2 + t.valor * (pct / 100) else acc.2
              | none => acc.2
            | none => acc.2)
          = acc.2 + commissionForTrans allClients t := by
        unfold commissionForTrans
        cases allClients.find? (fun c => c.id == t.clienteId) with
        | none => simp
        | some client =>
          cases hp : client.comissaoPct with
          | none => simp [hp]
          | some pct =>
            by_cases hz : pct = 0
            · simp [hp, hz]
            · simp [hp, hz]
      simp only [List.filter_cons, he, beq_self_eq_true, if_true, ite_true,
        sumValor_cons, sumCommission_cons]
      simp only [he, beq_self_eq_true, if_true] at hcomm ⊢
      rw [hcomm]
      have hne : ("entrada" == "saida") = false := rfl
      simp only [hne, Bool.false_eq_true, if_false, Prod.mk.injEq]
      exact ⟨by ring, by ring⟩
    · by_cases hs : t.tipo = "saida"
      · simp [List.filter_cons, he, hs, sumValor_cons]
        ring
      · simp [List.filter_cons, he, hs]

theorem LocalDate.ltb_eq_false_iff_leb (a b : LocalDate) :
    LocalDate.ltb a b = false ↔ LocalDate.leb b a = true := by
  cases a with
  | mk ay am ad =>
    cases b with
    | mk by' bm bd =>
      simp only [LocalDate.ltb, LocalDate.leb]
      split_ifs <;> simp_all <;> omega

theorem LocalDate.leb_trans (a b c : LocalDate)
    (hab : LocalDate.leb a b = true) (hbc : LocalDate.leb b c = true) :
    LocalDate.leb a c = true := by
  cases a with
  | mk ay am ad =>
    cases b with
    | mk by' bm bd =>
      cases c with
      | mk cy cm cd =>
        simp only [LocalDate.leb] at hab hbc ⊢
        split_ifs at hab hbc ⊢ <;> simp_all <;> omega

theorem LocalDate.leb_total (a b : LocalDate) :
    (LocalDate.leb a b || LocalDate.leb b a) = true := by
  cases a with
  | mk ay am ad =>
    cases b with
    | mk by' bm bd =>
      simp only [LocalDate.leb, Bool.or_eq_true]
      split_ifs <;> simp_all <;> omega

/-- Case-sensitive substring containment: `strIncludes s sub` models the
JavaScript `s.includes(sub)` (is `sub` a contiguous substring of `s`). -/
def strIncludes (s sub : String) : Bool :=
  decide (sub.data <:+: s.data)

/-- The JavaScript `toLowerCase()` on the (ASCII) strings the application
handles: lower-case every character. -/
def jsToLowerCase (s : String) : String :=
  ⟨s.data.map Char.toLower⟩

/-- The balance-bucket switch of `refreshSearchResults` (step 3 in
`app.js`), expressed as the predicate each `case` applies through
`results.filter`; a selector matching no `case` (the `switch` falls
through) keeps everything. -/
def saldoFilterPred (balanceFilter : String) (saldo : ℚ) : Bool :=
  match balanceFilter with
  | "positivo" => decide (saldo > 0)
  | "0-500" => decide (saldo > 0) && decide (saldo ≤ 500)
  | "501-1000" => decide (saldo ≥ 501) && decide (saldo ≤ 1000)
  | "1001+" => decide (saldo > 1000)
  | "negativo" => decide (saldo < 0)
  | "zero" => decide (saldo = 0)
  | _ => true

/-- Step 1 of `refreshSearchResults`: annotate every Roster client with its
computed balance (`{...client, saldo: calculateClientBalance(client.id)}`);
the spread object becomes a pair. -/
def annotateClients (allClients : List Client)
    (allTransactions : List Transaction) : List (Client × ℚ) :=
  allClients.map (fun client =>
    (client, calculateClientBalance allTransactions client.id))

/-- Function `refreshSearchResults` from `app.js`, DOM rendering stripped: returns
the filtered, balance-annotated client list.  Step 2 applies the free-text
filter when the query is non-empty (case-insensitive match on `nome`,
`empresa` or `id`); step 3 applies the balance-bucket filter unless the
selector is `'todos'`. -/
def refreshSearchResults (allClients : List Client)
    (allTransactions : List Transaction)
    (query balanceFilter : String) : List (Client × ℚ) :=
  let results := annotateClients allClients allTransactions
  let results :=
    if query.length > 0 then
      let lowerQuery := jsToLowerCase query
      results.filter (fun p =>
        strIncludes (jsToLowerCase p.1.nome) lowerQuery ||
        strIncludes (jsToLowerCase p.1.empresa) lowerQuery ||
        strIncludes (jsToLowerCase p.1.id) lowerQuery)
    else results
  if balanceFilter != "todos" then
    results.filter (fun p => saldoFilterPred balanceFilter p.2)
  else results

/-- The per-client recency view built in `renderClientCard` (`app.js`
lines 269-273): the client's transactions sorted most-recent-first with
the comparator `parseDate(b.data) - parseDate(a.data)`, then split into
entradas and saidas and truncated with `.slice(0, 4)`. -/
def recentTransactions (allTransactions : List Transaction)
    (clientId : String) : List Transaction × List Transaction :=
  let clientTransactions :=
    (getTransactionsForClient allTransactions clientId).mergeSort
      (fun a b => LocalDate.leb (parseDate b.data) (parseDate a.data))
  let entradas :=
    (clientTransactions.filter (fun t => t.tipo == "entrada")).take 4
  let saidas :=
    (clientTransactions.filter (fun t => t.tipo == "saida")).take 4
  (entradas, saidas)

/-- A parsed JSON value, the result of the platform's `JSON.parse`.  The
textual codec `JSON.stringify` / `JSON.parse` used by `handleExport` and
`handleImportFile` is the platform's inverse pair and is modelled at this
value level (pretty-printing whitespace is irrelevant to the parsed
value). -/
inductive JsonValue where
  | null : JsonValue
  | bool (b : Bool) : JsonValue
  | num (q : ℚ) : JsonValue
  | str (s : String) : JsonValue
  | arr (elems : List JsonValue) : JsonValue
  | obj (fields : List (String × JsonValue)) : JsonValue

/-- The test `Array.isArray` on a parsed JSON value. -/
def jsonIsArray : JsonValue → Bool
  | .arr _ => true
  | _ => false

/-- The JSON object produced for one transaction record by
`JSON.stringify` in `handleExport`: the five fields of `Transaction`, in
the order `addTransaction` creates them. -/
def encodeTransaction (t : Transaction) : JsonValue :=
  .obj [("id", .str t.id), ("clienteId", .str t.clienteId),
        ("tipo", .str t.tipo), ("valor", .num t.valor),
        ("data", .str t.data)]

/-- Look a field up in a parsed JSON object (JavaScript property access on
the result of `JSON.parse`). -/
def jsonField (fields : List (String × JsonValue)) (name : String) :
    Option JsonValue :=
  (fields.find? (fun f => f.1 == name)).map Prod.snd

/-- Reads a parsed JSON value back as a transaction record.  `app.js`
stores the parsed objects directly (`allTransactions = importedData`); in
this typed embedding an imported element re-enters the `Transaction`
representation through the same field layout the application reads
(`id`, `clienteId`, `tipo`, `valor`, `data`). -/
def decodeTransaction (j : JsonValue) : Option Transaction :=
  match j with
  | .obj fields =>
    match jsonField fields "id", jsonField fields "clienteId",
          jsonField fields "tipo", jsonField fields "valor",
          jsonField fields "data" with
    | some (.str i), some (.str cid), some (.str tp), some (.num v),
      some (.str d) => some ⟨i, cid, tp, v, d⟩
    | _, _, _, _, _ => none
  | _ => none

/-- The browser's `localStorage`, restricted to the single key
`TRANSACTIONS_KEY` the application uses: `none` models an absent key. -/
structure Storage where
  transactionsKey : Option (List Transaction)
deriving DecidableEq

/-- Function `saveTransactions` from `app.js`: serialize the in-memory Store into
the `localStorage` slot. -/
def saveTransactions (allTransactions : List Transaction)
    (storage : Storage) : Storage :=
  { storage with transactionsKey := some allTransactions }

/-- Function `handleExport` from `app.js`: `JSON.stringify(allTransactions, null, 2)`,
modelled at the parsed-value level as the JSON array of the encoded
records. -/
def handleExport (allTransactions : List Transaction) : JsonValue :=
  .arr (allTransactions.map encodeTransaction)

/-- The import step of `handleImportFile` in `app.js` (the `reader.onload`
body), acting on the already-parsed payload: a non-array payload throws,
which the `catch` turns into the failure alert with the in-memory Store
and the `localStorage` slot untouched; an array payload replaces the whole
Store and persists it via `saveTransactions`.  The result is the new
`(Store, Storage)` state paired with the error message shown on failure
(`none` on success). -/
def handleImportFile (allTransactions : List Transaction) (storage : Storage)
    (payload : JsonValue) : (List Transaction × Storage) × Option String :=
  match payload with
  | .arr importedData =>
    let newTransactions := importedData.filterMap decodeTransaction
    ((newTransactions, saveTransactions newTransactions storage), none)
  | _ =>
    ((allTransactions, storage), some "O arquivo não é um array JSON válido.")

theorem decode_encode (t : Transaction) :
    decodeTransaction (encodeTransaction t) = some t := rfl

/-- Scale a rational by a signed power of ten (the exponent part of a
JavaScript decimal literal). -/
def scaleByPowTen (q : ℚ) (e : Int) : ℚ :=
  if 0 ≤ e then q * (10 : ℚ) ^ e.toNat else q / (10 : ℚ) ^ (-e).toNat

/-- The syntactic content of a JavaScript decimal literal: sign, the value
and length of the integer and fraction digit runs, and the signed
exponent. -/
structure DecimalParts where
  negative : Bool
  intDigits : Nat
  fracDigits : Nat
  fracLen : Nat
  exp : Int
deriving DecidableEq

/-- The lexical phase of the platform's `parseFloat`: skip leading
whitespace, read an optional sign, an integer digit run, an optional
fraction and an optional exponent, ignore any trailing characters, and
fail when no digit was read at all. -/
def parseDecimalParts (s : String) : Option DecimalParts :=
  let l := s.data.dropWhile (fun c => c == ' ' || c == '\t' || c == '\n' || c == '\r')
  let signAndRest : Bool × List Char :=
    match l with
    | '-' :: rest => (true, rest)
    | '+' :: rest => (false, rest)
    | _ => (false, l)
  let l₁ := signAndRest.2
  let intPart := l₁.takeWhile Char.isDigit
  let l₂ := l₁.dropWhile Char.isDigit
  let fracAndRest : List Char × List Char :=
    match l₂ with
    | '.' :: rest => (rest.takeWhile Char.isDigit, rest.dropWhile Char.isDigit)
    | _ => ([], l₂)
  let fracPart := fracAndRest.1
  let l₃ := fracAndRest.2
  if intPart.isEmpty && fracPart.isEmpty then none
  else
    let expVal : Int :=
      match l₃ with
      | e :: rest =>
        if e == 'e' || e == 'E' then
          let expSignAndRest : Int × List Char :=
            match rest with
            | '-' :: r => (-1, r)
            | '+' :: r => (1, r)
            | _ => (1, rest)
          let eDigits := expSignAndRest.2.takeWhile Char.isDigit
          if eDigits.isEmpty then 0 else expSignAndRest.1 * digitsToNat eDigits
        else 0
      | [] => 0
    some ⟨signAndRest.1, digitsToNat intPart, digitsToNat fracPart,
          fracPart.length, expVal⟩

/-- The numeric value of a parsed decimal literal. -/
def partsToRat (p : DecimalParts) : ℚ :=
  let mantissa : ℚ :=
    (p.intDigits : ℚ) + (p.fracDigits : ℚ) / (10 : ℚ) ^ p.fracLen
  scaleByPowTen (if p.negative then -mantissa else mantissa) p.exp

/-- The platform's `parseFloat`, called by `addTransaction` on the value
typed into the form: the numeric value of the longest decimal-literal
prefix of the input (after leading whitespace).  The failure result `NaN`
is not representable in `ℚ`, so it is modelled as `none`. -/
def jsParseFloat (s : String) : Option ℚ :=
  (parseDecimalParts s).map partsToRat

/-- Function `addTransaction` from `app.js`: build the new record (unique id from
the current timestamp, `valor` through `parseFloat`), push it onto the
Store and persist with `saveTransactions`.  `Date.now()` becomes the
explicit `now` argument; the `value` the form submits is a string.  The
case where `parseFloat` yields `NaN` (a record holding `NaN` would be
pushed) is outside the rational embedding and is returned as `none`. -/
def addTransaction (allTransactions : List Transaction) (storage : Storage)
    (clientId type value date : String) (now : Nat) :
    Option (List Transaction × Storage) :=
  (jsParseFloat value).map (fun v =>
    let newTransaction : Transaction :=
      { id := "trans_" ++ toString now
        clienteId := clientId
        tipo := type
        valor := v
        data := date }
    let newList := allTransactions ++ [newTransaction]
    (newList, saveTransactions newList storage))

theorem foldl_add_map {α : Type} (f : α → ℚ) (l : List α) :
    ∀ a : ℚ, l.foldl (fun acc x => acc + f x) a = a + (l.map f).sum := by
  induction l with
  | nil => intro a; simp
  | cons x l ih => intro a; simp [ih]; ring

/-- Claim C1: for every client id and transaction list, the balance equals
the sum of `valor` over the matching entrada transactions minus the sum
over the matching saida transactions (any other `tipo` is ignored by the
total function without throwing), and the balance is 0 over a transaction
list containing no transaction of the client — `calculateClientBalance`
never consults the Roster, so this holds whether or not the id occurs
there. -/
theorem calculateClientBalance_spec (clientId : String) (ts : List Transaction) :
    calculateClientBalance ts clientId
      = sumValor (ts.filter (fun t => t.tipo == "entrada" && t.clienteId == clientId))
        - sumValor (ts.filter (fun t => t.tipo == "saida" && t.clienteId == clientId))
    ∧ calculateClientBalance (ts.filter (fun t => !(t.clienteId == clientId))) clientId
        = 0 := by
  constructor
  · unfold calculateClientBalance getTransactionsForClient
    rw [balance_foldl, List.filter_filter, List.filter_filter]
    simp
  · unfold calculateClientBalance getTransactionsForClient
    rw [balance_foldl, List.filter_filter, List.filter_filter]
    simp [sumValor, Bool.and_assoc, Bool.and_not_self]

/-- Claim C2: for every date range, the dashboard's commission total is the
sum, over the range-included entrada transactions, of `valor` times the
found client's commission percentage over 100, with an unknown client or
an absent `comissaoPct` contributing 0 (`commissionForTrans`); saida
transactions do not occur in the sum at all. -/
theorem dashboardCommission_spec (allClients : List Client)
    (allTransactions : List Transaction) (startDate endDate : Option String) :
    (calculateDashboardStats allClients allTransactions startDate endDate).comissaoTotalValor
      = sumCommission allClients
          ((filterTransactionsByRange allTransactions startDate endDate).filter
            (fun t => t.tipo == "entrada")) := by
  simp only [calculateDashboardStats]
  rw [dashboard_foldl]
  simp

/-- Claim C3: for a fixed Roster and transaction list, the client count is
the Roster size and the average commission is the arithmetic mean of
`comissaoPct` (absent values counted as 0, and 0 for an empty Roster);
neither depends on the date range, so any two ranges yield the same two
figures. -/
theorem dashboardStats_range_invariant (allClients : List Client)
    (allTransactions : List Transaction) (sd₁ ed₁ sd₂ ed₂ : Option String) :
    (calculateDashboardStats allClients allTransactions sd₁ ed₁).totalClientes
        = allClients.length
    ∧ (calculateDashboardStats allClients allTransactions sd₁ ed₁).comissaoMediaPct
        = (if allClients = [] then 0
           else (allClients.map (fun c => c.comissaoPct.getD 0)).sum / allClients.length)
    ∧ (calculateDashboardStats allClients allTransactions sd₁ ed₁).totalClientes
        = (calculateDashboardStats allClients allTransactions sd₂ ed₂).totalClientes
    ∧ (calculateDashboardStats allClients allTransactions sd₁ ed₁).comissaoMediaPct
        = (calculateDashboardStats allClients allTransactions sd₂ ed₂).comissaoMediaPct := by
  refine ⟨rfl, ?_, rfl, rfl⟩
  unfold calculateDashboardStats
  by_cases h : allClients = []
  · simp [h]
  · have hlen : 0 < allClients.length := List.length_pos.mpr h
    simp only [hlen, if_pos, if_neg h, foldl_add_map, zero_add]

/-- Specification vocabulary for the date-range claim: a transaction is
included iff its date is on or after the provided start and on or before
the provided end, an absent bound imposing no constraint on that side. -/
def rangeSpecIncludes (startDate endDate : Option String) (t : Transaction) : Bool :=
  startDate.elim true (fun s => LocalDate.leb (parseDate s) (parseDate t.data)) &&
  endDate.elim true (fun e => LocalDate.leb (parseDate t.data) (parseDate e))

theorem LocalDate.leb_eq_false_iff_ltb (a b : LocalDate) :
    LocalDate.leb a b = false ↔ LocalDate.ltb b a = true := by
  cases a with
  | mk ay am ad =>
    cases b with
    | mk by' bm bd =>
      simp only [LocalDate.ltb, LocalDate.leb]
      split_ifs <;> simp_all <;> omega

theorem transactionInRange_iff (sd ed : Option String) (t : Transaction) :
    transactionInRange (sd.map parseDate) (ed.map parseDate) t = true
      ↔ rangeSpecIncludes sd ed t = true := by
  cases sd with
  | none =>
    cases ed with
    | none => simp [transactionInRange, rangeSpecIncludes]
    | some e =>
      simp only [transactionInRange, rangeSpecIncludes, Option.map_none,
        Option.map_some, Option.elim]
      split_ifs with h <;>
        simp_all [LocalDate.ltb_eq_false_iff_leb, LocalDate.leb_eq_false_iff_ltb, Bool.not_eq_true]
  | some s =>
    cases ed with
    | none =>
      simp only [transactionInRange, rangeSpecIncludes, Option.map_none,
        Option.map_some, Option.elim]
      split_ifs with h <;>
        simp_all [LocalDate.ltb_eq_false_iff_leb, LocalDate.leb_eq_false_iff_ltb, Bool.not_eq_true]
    | some e =>
      simp only [transactionInRange, rangeSpecIncludes, Option.map_some,
        Option.elim]
      split_ifs with h₁ h₂ <;>
        simp_all [LocalDate.ltb_eq_false_iff_leb, LocalDate.leb_eq_false_iff_ltb, Bool.not_eq_true]

/-- A one-field-of-interest transaction used for the concrete boundary
instances of the date-range claim. -/
def sampleTransaction (d : String) : Transaction :=
  { id := "t1", clienteId := "c1", tipo := "entrada", valor := 1, data := d }

/-- Claim C4: a transaction is included in the range-dependent dashboard
figures iff its `data`, compared as a date, is on or after a provided
`startDate` and on or before a provided `endDate`, an absent bound
imposing no constraint; concretely, with the range 2024-01-10..2024-01-20
a transaction dated exactly on either bound is included, one dated one day
outside either bound is excluded, and an absent bound excludes nothing on
its side. -/
theorem dateRangeFilter_spec :
    (∀ (t : Transaction) (ts : List Transaction) (sd ed : Option String),
      t ∈ filterTransactionsByRange ts sd ed
        ↔ t ∈ ts ∧ rangeSpecIncludes sd ed t = true)
    ∧ sampleTransaction "2024-01-10"
        ∈ filterTransactionsByRange [sampleTransaction "2024-01-10"]
            (some "2024-01-10") (some "2024-01-20")
    ∧ sampleTransaction "2024-01-20"
        ∈ filterTransactionsByRange [sampleTransaction "2024-01-20"]
            (some "2024-01-10") (some "2024-01-20")
    ∧ sampleTransaction "2024-01-09"
        ∉ filterTransactionsByRange [sampleTransaction "2024-01-09"]
            (some "2024-01-10") (some "2024-01-20")
    ∧ sampleTransaction "2024-01-21"
        ∉ filterTransactionsByRange [sampleTransaction "2024-01-21"]
            (some "2024-01-10") (some "2024-01-20")
    ∧ sampleTransaction "1900-01-01"
        ∈ filterTransactionsByRange [sampleTransaction "1900-01-01"]
            none (some "2024-01-20")
    ∧ sampleTransaction "2999-12-31"
        ∈ filterTransactionsByRange [sampleTransaction "2999-12-31"]
            (some "2024-01-10") none := by
  refine ⟨?_, by decide, by decide, by decide, by decide, by decide, by decide⟩
  intro t ts sd ed
  simp only [filterTransactionsByRange, List.mem_filter]
  exact and_congr_right (fun _ => transactionInRange_iff sd ed t)

/-- Claim C5: the balance-bucket boundaries.  A balance of exactly 500
falls in the `0-500` bucket and not in `501-1000`; exactly 501 falls in
`501-1000`; exactly 0 satisfies only the `zero` bucket and none of the
others; and any balance strictly between 500 and 501 satisfies neither
`0-500` nor `501-1000`. -/
theorem saldoFilter_boundaries (s : ℚ) (h₁ : 500 < s) (h₂ : s < 501) :
    saldoFilterPred "0-500" s = false
    ∧ saldoFilterPred "501-1000" s = false
    ∧ saldoFilterPred "0-500" 500 = true
    ∧ saldoFilterPred "501-1000" 500 = false
    ∧ saldoFilterPred "501-1000" 501 = true
    ∧ saldoFilterPred "zero" 0 = true
    ∧ saldoFilterPred "positivo" 0 = false
    ∧ saldoFilterPred "negativo" 0 = false
    ∧ saldoFilterPred "0-500" 0 = false
    ∧ saldoFilterPred "501-1000" 0 = false
    ∧ saldoFilterPred "1001+" 0 = false := by
  have hns : ¬ s ≤ 500 := by linarith
  have hns' : ¬ 501 ≤ s := by linarith
  refine ⟨?_, ?_, ?_, ?_, ?_, ?_, ?_, ?_, ?_, ?_, ?_⟩
  · show (decide (s > 0) && decide (s ≤ 500)) = false
    simp [hns]
  · show (decide (s ≥ 501) && decide (s ≤ 1000)) = false
    simp [hns']
  · show (decide ((500 : ℚ) > 0) && decide ((500 : ℚ) ≤ 500)) = true
    norm_num
  · show (decide ((500 : ℚ) ≥ 501) && decide ((500 : ℚ) ≤ 1000)) = false
    norm_num
  · show (decide ((501 : ℚ) ≥ 501) && decide ((501 : ℚ) ≤ 1000)) = true
    norm_num
  · show decide ((0 : ℚ) = 0) = true
    norm_num
  · show decide ((0 : ℚ) > 0) = false
    norm_num
  · show decide ((0 : ℚ) < 0) = false
    norm_num
  · show (decide ((0 : ℚ) > 0) && decide ((0 : ℚ) ≤ 500)) = false
    norm_num
  · show (decide ((0 : ℚ) ≥ 501) && decide ((0 : ℚ) ≤ 1000)) = false
    norm_num
  · show decide ((0 : ℚ) > 1000) = false
    norm_num

/-- Claim C8: with the bucket selector at `'todos'`, the text filter keeps
exactly those annotated clients whose `nome`, `empresa` or `id` contains
the query as a case-insensitive substring (any one match suffices, and
a match up to lower/upper-case variation counts), while the empty query
keeps every client. -/
theorem textFilter_spec (allClients : List Client)
    (allTransactions : List Transaction) (query : String) :
    refreshSearchResults allClients allTransactions query "todos"
      = (annotateClients allClients allTransactions).filter
          (fun p => query.length == 0 ||
            (strIncludes (jsToLowerCase p.1.nome) (jsToLowerCase query) ||
             strIncludes (jsToLowerCase p.1.empresa) (jsToLowerCase query) ||
             strIncludes (jsToLowerCase p.1.id) (jsToLowerCase query)))
    ∧ refreshSearchResults allClients allTransactions "" "todos"
      = annotateClients allClients allTransactions := by
  constructor
  · by_cases hq : query.length = 0
    · simp [refreshSearchResults, hq, List.filter_true]
    · have hq' : query.length > 0 := Nat.pos_of_ne_zero hq
      simp only [refreshSearchResults, hq', if_pos]
      have hq0 : (query.length == 0) = false := by simp [hq]
      simp [hq0]
  · simp [refreshSearchResults]

/-- Witness for the bucket-boundary claim at the concrete balance 1001/2,
a value strictly between 500 and 501. -/
theorem saldoFilter_boundaries_witness :
    (500 : ℚ) < 1001 / 2 ∧ (1001 / 2 : ℚ) < 501
    ∧ (saldoFilterPred "0-500" (1001 / 2) = false
       ∧ saldoFilterPred "501-1000" (1001 / 2) = false) := by
  refine ⟨by norm_num, by norm_num, ?_⟩
  have h := saldoFilter_boundaries (1001 / 2) (by norm_num) (by norm_num)
  exact ⟨h.1, h.2.1⟩

theorem filterMap_decode_encode (ts : List Transaction) :
    List.filterMap (decodeTransaction ∘ encodeTransaction) ts = ts := by
  have h : decodeTransaction ∘ encodeTransaction = some :=
    funext (fun t => decode_encode t)
  rw [h, List.filterMap_some]

/-- Claim C6: the import contract.  Every payload whose top-level JSON
value is not an array (null, a boolean, a number, a string, or an object)
produces the validation error and leaves both the in-memory Store and the
persisted slot untouched; a payload that is an array of transaction
records replaces the entire Store with the payload, with no merging with
the prior transactions, and persists the result. -/
theorem importFile_contract (store : List Transaction) (storage : Storage) :
    (∀ fields, handleImportFile store storage (.obj fields)
        = ((store, storage), some "O arquivo não é um array JSON válido."))
    ∧ handleImportFile store storage .null
        = ((store, storage), some "O arquivo não é um array JSON válido.")
    ∧ (∀ b, handleImportFile store storage (.bool b)
        = ((store, storage), some "O arquivo não é um array JSON válido."))
    ∧ (∀ q, handleImportFile store storage (.num q)
        = ((store, storage), some "O arquivo não é um array JSON válido."))
    ∧ (∀ s, handleImportFile store storage (.str s)
        = ((store, storage), some "O arquivo não é um array JSON válido."))
    ∧ (∀ ts : List Transaction,
        handleImportFile store storage (.arr (ts.map encodeTransaction))
          = ((ts, saveTransactions ts storage), none)) := by
  refine ⟨fun fields => rfl, rfl, fun b => rfl, fun q => rfl, fun s => rfl,
    fun ts => ?_⟩
  simp [handleImportFile, List.filterMap_map, filterMap_decode_encode]

/-- Claim C7: round-trip.  Importing the export of any Store yields
exactly that Store — every record and their order preserved — no matter
what the Store held before the import, and the result is persisted with
no error reported. -/
theorem export_import_roundtrip (store prior : List Transaction)
    (storage : Storage) :
    handleImportFile prior storage (handleExport store)
      = ((store, saveTransactions store storage), none) := by
  simp [handleImportFile, handleExport, List.filterMap_map,
    filterMap_decode_encode]

theorem recentList_aux (ts : List Transaction) (clientId tipoVal : String) :
    ((((getTransactionsForClient ts clientId).mergeSort
          (fun a b => LocalDate.leb (parseDate b.data) (parseDate a.data))).filter
        (fun t => t.tipo == tipoVal)).take 4).length ≤ 4
    ∧ List.Pairwise
        (fun a b => LocalDate.leb (parseDate b.data) (parseDate a.data) = true)
        ((((getTransactionsForClient ts clientId).mergeSort
            (fun a b => LocalDate.leb (parseDate b.data) (parseDate a.data))).filter
          (fun t => t.tipo == tipoVal)).take 4)
    ∧ ((((getTransactionsForClient ts clientId).mergeSort
          (fun a b => LocalDate.leb (parseDate b.data) (parseDate a.data))).filter
        (fun t => t.tipo == tipoVal)).take 4).all
        (fun t => t.clienteId == clientId && t.tipo == tipoVal
          && decide (t ∈ ts)) = true := by
  have hpair :
      List.Pairwise
        (fun a b => LocalDate.leb (parseDate b.data) (parseDate a.data) = true)
        ((getTransactionsForClient ts clientId).mergeSort
          (fun a b => LocalDate.leb (parseDate b.data) (parseDate a.data))) :=
    @List.sorted_mergeSort Transaction
      (fun a b => LocalDate.leb (parseDate b.data) (parseDate a.data))
      (fun a b c hab hbc => LocalDate.leb_trans _ _ _ hbc hab)
      (fun a b => LocalDate.leb_total (parseDate b.data) (parseDate a.data))
      (getTransactionsForClient ts clientId)
  have hsub :
      ((((getTransactionsForClient ts clientId).mergeSort
          (fun a b => LocalDate.leb (parseDate b.data) (parseDate a.data))).filter
        (fun t => t.tipo == tipoVal)).take 4).Sublist
        ((getTransactionsForClient ts clientId).mergeSort
          (fun a b => LocalDate.leb (parseDate b.data) (parseDate a.data))) :=
    (List.take_sublist _ _).trans (List.filter_sublist _)
  refine ⟨List.length_take_le _ _, List.Pairwise.sublist hsub hpair, ?_⟩
  rw [List.all_eq_true]
  intro t ht
  have htfilter :
      t ∈ (((getTransactionsForClient ts clientId).mergeSort
          (fun a b => LocalDate.leb (parseDate b.data) (parseDate a.data))).filter
        (fun t => t.tipo == tipoVal)) := (List.take_sublist _ _).subset ht
  rw [List.mem_filter] at htfilter
  obtain ⟨htsorted, htipo⟩ := htfilter
  have htclient : t ∈ getTransactionsForClient ts clientId :=
    ((List.mergeSort_perm _ _).mem_iff).mp htsorted
  rw [getTransactionsForClient, List.mem_filter] at htclient
  obtain ⟨hts, hid⟩ := htclient
  simp [hid, htipo, hts]

theorem recentFull_aux (ts : List Transaction) (clientId tipoVal : String) :
    ∃ full : List Transaction,
      full.Perm (ts.filter (fun t => t.tipo == tipoVal && t.clienteId == clientId))
      ∧ List.Pairwise
          (fun a b => LocalDate.leb (parseDate b.data) (parseDate a.data) = true)
          full
      ∧ (((getTransactionsForClient ts clientId).mergeSort
            (fun a b => LocalDate.leb (parseDate b.data) (parseDate a.data))).filter
          (fun t => t.tipo == tipoVal)).take 4 = full.take 4 := by
  have hpair :
      List.Pairwise
        (fun a b => LocalDate.leb (parseDate b.data) (parseDate a.data) = true)
        ((getTransactionsForClient ts clientId).mergeSort
          (fun a b => LocalDate.leb (parseDate b.data) (parseDate a.data))) :=
    @List.sorted_mergeSort Transaction
      (fun a b => LocalDate.leb (parseDate b.data) (parseDate a.data))
      (fun a b c hab hbc => LocalDate.leb_trans _ _ _ hbc hab)
      (fun a b => LocalDate.leb_total (parseDate b.data) (parseDate a.data))
      (getTransactionsForClient ts clientId)
  refine ⟨((getTransactionsForClient ts clientId).mergeSort
      (fun a b => LocalDate.leb (parseDate b.data) (parseDate a.data))).filter
      (fun t => t.tipo == tipoVal), ?_, List.Pairwise.filter _ hpair, rfl⟩
  have hperm :=
    (List.mergeSort_perm (getTransactionsForClient ts clientId)
      (fun a b => LocalDate.leb (parseDate b.data) (parseDate a.data))).filter
      (fun t => t.tipo == tipoVal)
  rw [getTransactionsForClient, List.filter_filter] at hperm
  exact hperm

/-- Claim C9: the per-client recency view of `renderClientCard` produces
the client's entrada transactions and the client's saida transactions:
each output list is the 4-element truncation of a date-descending
arrangement of all of the client's transactions of that `tipo` (so the
client's transactions appear up to truncation and the kept entries are
the most recent ones), each output list is itself sorted by `data`
descending under the same `parseDate` local-midnight interpretation the
balance and dashboard computations use, holds at most 4 entries, and
holds only the client's own transactions of that `tipo`, drawn from the
Store. -/
theorem recentTransactions_spec (allTransactions : List Transaction)
    (clientId : String) :
    (∃ full : List Transaction,
      full.Perm (allTransactions.filter
        (fun t => t.tipo == "entrada" && t.clienteId == clientId))
      ∧ List.Pairwise
          (fun a b => LocalDate.leb (parseDate b.data) (parseDate a.data) = true)
          full
      ∧ (recentTransactions allTransactions clientId).1 = full.take 4)
    ∧ (∃ full : List Transaction,
      full.Perm (allTransactions.filter
        (fun t => t.tipo == "saida" && t.clienteId == clientId))
      ∧ List.Pairwise
          (fun a b => LocalDate.leb (parseDate b.data) (parseDate a.data) = true)
          full
      ∧ (recentTransactions allTransactions clientId).2 = full.take 4)
    ∧ (recentTransactions allTransactions clientId).1.length ≤ 4
    ∧ (recentTransactions allTransactions clientId).2.length ≤ 4
    ∧ List.Pairwise
        (fun a b => LocalDate.leb (parseDate b.data) (parseDate a.data) = true)
        (recentTransactions allTransactions clientId).1
    ∧ List.Pairwise
        (fun a b => LocalDate.leb (parseDate b.data) (parseDate a.data) = true)
        (recentTransactions allTransactions clientId).2
    ∧ (recentTransactions allTransactions clientId).1.all
        (fun t => t.clienteId == clientId && t.tipo == "entrada"
          && decide (t ∈ allTransactions)) = true
    ∧ (recentTransactions allTransactions clientId).2.all
        (fun t => t.clienteId == clientId && t.tipo == "saida"
          && decide (t ∈ allTransactions)) = true := by
  have he := recentList_aux allTransactions clientId "entrada"
  have hs := recentList_aux allTransactions clientId "saida"
  have hfe := recentFull_aux allTransactions clientId "entrada"
  have hfs := recentFull_aux allTransactions clientId "saida"
  exact ⟨hfe, hfs, he.1, hs.1, he.2.1, hs.2.1, he.2.2, hs.2.2⟩

/-- Claim C10: adding a transaction extends the Store by exactly one
record appended at the end — every previously stored record unchanged and
in place — and the new record carries the given client id, type and date
unchanged, with `valor` the `parseFloat` coercion of the submitted value
string; the extended Store is persisted. -/
theorem addTransaction_spec (store : List Transaction) (storage : Storage)
    (clientId type value date : String) (now : Nat) (v : ℚ)
    (h : jsParseFloat value = some v) :
    addTransaction store storage clientId type value date now
      = some (store ++ [{ id := "trans_" ++ toString now, clienteId := clientId,
                          tipo := type, valor := v, data := date }],
              saveTransactions
                (store ++ [{ id := "trans_" ++ toString now,
                             clienteId := clientId, tipo := type, valor := v,
                             data := date }]) storage)
    ∧ ((store ++ [{ id := "trans_" ++ toString now, clienteId := clientId,
                    tipo := type, valor := v, data := date }]
          : List Transaction)).take store.length
        = store
    ∧ ((store ++ [{ id := "trans_" ++ toString now, clienteId := clientId,
                    tipo := type, valor := v, data := date }]
          : List Transaction)).length
        = store.length + 1 := by
  refine ⟨?_, List.take_left store _, by simp⟩
  simp [addTransaction, h]

/-- Witness for the add-transaction claim: the form value `"12.5"` parses
to 25/2 and the record built from it is appended to the empty Store. -/
theorem addTransaction_spec_witness :
    jsParseFloat "12.5" = some (25 / 2)
    ∧ addTransaction [] ⟨none⟩ "c1" "entrada" "12.5" "2024-01-10" 7
        = some (([] : List Transaction)
                  ++ [{ id := "trans_" ++ toString 7, clienteId := "c1",
                        tipo := "entrada", valor := 25 / 2,
                        data := "2024-01-10" }],
                saveTransactions
                  (([] : List Transaction)
                    ++ [{ id := "trans_" ++ toString 7, clienteId := "c1",
                          tipo := "entrada", valor := 25 / 2,
                          data := "2024-01-10" }]) ⟨none⟩) := by
  have hp : parseDecimalParts "12.5" = some ⟨false, 12, 5, 1, 0⟩ := by decide
  have h : jsParseFloat "12.5" = some (25 / 2) := by
    simp [jsParseFloat, hp, partsToRat, scaleByPowTen]
    norm_num
  exact ⟨h,
    (addTransaction_spec [] ⟨none⟩ "c1" "entrada" "12.5" "2024-01-10" 7
      (25 / 2) h).1⟩
